import Mathlib

/-!
Verification of the image pre-processing pipeline in imagePreProcessing.py.

Shallow embedding: file-system paths are modelled as a flag for absoluteness
plus a list of components, an image as its mode, dimensions and abstract pixel
data, and every scanned file as the data the Python code derives from it
(decodability, byte size, variance sum, decoded image, numpy array rank).
Each Python function is translated to a Lean function of the same name.
-/

namespace ImagePre

/-- A file-system path: `absolute` is true when the path starts at the root,
`parts` are the path components in order. Mirrors how `os.path` and
`pathlib.Path` treat paths on POSIX (no normalization of dots modelled). -/
structure PPath where
  absolute : Bool
  parts : List String
deriving DecidableEq, Repr

/-- Render a path the way `os.path.join` produces it on POSIX. -/
def renderPath (p : PPath) : String :=
  (if p.absolute then "/" else "") ++ String.intercalate "/" p.parts

/-- A decoded image as `PIL.Image` exposes it: its mode, its pixel dimensions,
and its pixel data (abstract, for `ImageChops.difference`). -/
structure Img where
  mode : String
  width : Nat
  height : Nat
  pixels : List Nat
deriving DecidableEq, Repr

/-- All the data `validate_file` derives from one file on disk:
whether `Image.open` succeeds, the byte size from `os.path.getsize`,
the sum of per-channel variances from `ImageStat.Stat(img).var`,
the decoded image, and the rank `len(np.array(img).shape)`. -/
structure FileData where
  path : PPath
  decodable : Bool
  size : Nat
  varSum : ℚ
  img : Img
  ndims : Nat
deriving DecidableEq, Repr

/-- Outcome of one call of the inner helper `is_equal`:
`ImageChops.difference(im1, im2).getbbox()` returns `None` when the images are
pixel-identical (`noBBox`), a bounding box when they differ (`bbox`), and the
helper catches the `ValueError` raised when the images cannot be compared and
returns the number 6 instead (`errorCode`). -/
inductive DiffResult where
  | noBBox : DiffResult
  | bbox : DiffResult
  | errorCode : DiffResult
deriving DecidableEq, Repr

/-- The helper `is_equal(im1, im2)` inside `validate_file`:
`ImageChops.difference` raises `ValueError` when modes or sizes differ
(caught, turned into the sentinel 6); otherwise the bounding box of the
difference is `None` exactly when the pixel data agree. -/
def is_equal (im1 im2 : Img) : DiffResult :=
  if im1.mode = im2.mode ∧ im1.width = im2.width ∧ im1.height = im2.height then
    if im1.pixels = im2.pixels then DiffResult.noBBox else DiffResult.bbox
  else DiffResult.errorCode

/-- The extension check of `validate_file`:
`file_path.lower().endswith(('.jpg', '.JPG', '.JPEG', '.jpeg'))`, carried out
on the character list of the path (`str.lower` maps `Char.toLower`,
`str.endswith` is a suffix test). -/
def hasAllowedExtension (p : String) : Bool :=
  let l := p.data.map Char.toLower
  (".jpg".data.isSuffixOf l) || (".JPG".data.isSuffixOf l) ||
  (".JPEG".data.isSuffixOf l) || (".jpeg".data.isSuffixOf l)

/-- The error-6 loop of `validate_file`: walk the previously checked files,
compare against every one whose recorded code is neither 3 nor 1, and return 6
as soon as a comparison reports a `None` bounding box; otherwise fall through
to the final `return nr_of_error` with `nr_of_error = 0`. -/
def dup_scan (im1 : Img) : List (FileData × Nat) → Nat
  | [] => 0
  | (g, c) :: rest =>
    if c ≠ 3 ∧ c ≠ 1 then
      if is_equal im1 g.img = DiffResult.noBBox then 6
      else dup_scan im1 rest
    else dup_scan im1 rest

/-- `validate_file(file_path, output_dir, checked_files)`: the ordered rule
chain, returning the code of the first failing rule (0 when all pass).
`output_dir` is unused by the Python function body and omitted. -/
def validate_file (f : FileData) (checked : List (FileData × Nat)) : Nat :=
  if ¬ f.decodable then 3
  else if ¬ hasAllowedExtension (renderPath f.path) then 1
  else if ¬ (f.size > 10000) then 2
  else if ¬ (f.varSum > 0) then 4
  else if ¬ (f.img.width ≥ 100 ∧ f.img.height ≥ 100) ∨ f.ndims > 2 then 5
  else dup_scan f.img checked

/-- The loop body of `check_files`, with `acc` the `checked_files` list built
so far: validate the next file against `acc`, append the pair, continue. The
returned list holds the entries added after `acc`. -/
def check_files_from (acc : List (FileData × Nat)) : List FileData → List (FileData × Nat)
  | [] => []
  | f :: rest =>
    (f, validate_file f acc) :: check_files_from (acc ++ [(f, validate_file f acc)]) rest

/-- `check_files(sorted_files, output_dir)`: classify every file in order,
each against the list of files checked before it. -/
def check_files (files : List FileData) : List (FileData × Nat) :=
  check_files_from [] files

/-- `separate_files(checked_files)`: split into the entries with code 0 and
the rest, both in traversal order. -/
def separate_files : List (FileData × Nat) → List (FileData × Nat) × List (FileData × Nat)
  | [] => ([], [])
  | c :: rest =>
    let vi := separate_files rest
    if c.2 = 0 then (c :: vi.1, vi.2) else (vi.1, c :: vi.2)

/-- The format `f'\x7bi+1:06d\x7d'`: decimal digits of the number, left-padded
with zeros to at least six characters. -/
def pad6 (n : Nat) : String :=
  String.mk (List.replicate (6 - (toString n).length) '0') ++ toString n

/-- `copy_valid_files(valid_files, output_dir)` as the list of
(source path, destination path) pairs it copies, with `i` the running index of
Python's `enumerate`. -/
def copy_valid_files_from (outDir : String) (i : Nat) : List (FileData × Nat) → List (String × String)
  | [] => []
  | elem :: rest =>
    (renderPath elem.1.path, outDir ++ "/" ++ pad6 (i + 1) ++ ".jpg") ::
      copy_valid_files_from outDir (i + 1) rest

/-- `copy_valid_files` starting, as in Python, at index 0. -/
def copy_valid_files (outDir : String) (valid : List (FileData × Nat)) : List (String × String) :=
  copy_valid_files_from outDir 0 valid

/-- One component of a relative path is matched by the `*` and `**` of the
glob pattern only when it does not start with a dot (glob hides dotfiles). -/
def globMatchComp (s : String) : Bool :=
  !(".".data.isPrefixOf s.data)

/-- Whether `glob.glob(os.path.join(input_dir, '**/*.*'), recursive=True)`
matches the file at relative component path `rel` below the input directory:
every directory component is non-hidden, and the final component is non-hidden
and contains a dot. -/
def globMatch : List String → Bool
  | [] => false
  | [base] => globMatchComp base && base.data.contains '.'
  | d :: rest => globMatchComp d && globMatch rest

/-- Join a relative component path onto the input directory, as
`glob` returns paths: the result is absolute exactly when `input_dir` is. -/
def joinUnder (input : PPath) (rel : List String) : PPath :=
  ⟨input.absolute, input.parts ++ rel⟩

/-- Comparison of full paths by their rendered strings, as Python `sorted`
compares the path strings returned by `glob`. -/
def pathLe (a b : PPath) : Prop :=
  renderPath a ≤ renderPath b

instance : DecidableRel pathLe :=
  fun a b => inferInstanceAs (Decidable (renderPath a ≤ renderPath b))

instance : IsTotal PPath pathLe :=
  ⟨fun a b => le_total (renderPath a) (renderPath b)⟩

instance : IsTrans PPath pathLe :=
  ⟨fun _ _ _ hab hbc => le_trans hab hbc⟩

/-- `get_files(input_dir)`: the files below `input_dir` (given as the list
`fs` of their relative component paths) that the glob pattern matches, joined
onto `input_dir`, sorted lexicographically by rendered path. -/
def get_files (input : PPath) (fs : List (List String)) : List PPath :=
  List.insertionSort pathLe ((fs.filter globMatch).map (joinUnder input))

/-- `os.path.abspath(input_dir)` relative to the current working directory
`cwd` (dot-segment normalization is not modelled; `cwd` is absolute). -/
def abspath (cwd p : PPath) : PPath :=
  if p.absolute then p else ⟨true, cwd.parts ++ p.parts⟩

/-- `Path(p).relative_to(base)`: the remaining components when `base` is a
prefix of `p` (same absoluteness, leading components equal), otherwise `none`
(pathlib raises `ValueError`). -/
def relative_to (p base : PPath) : Option (List String) :=
  if p.absolute = base.absolute ∧ base.parts.isPrefixOf p.parts then
    some (p.parts.drop base.parts.length)
  else none

/-- `write_log_file(logfile, invalid_files, input_dir)`: for each invalid
file compute its path relative to `os.path.abspath(input_dir)` and emit one
log line; an uncaught `ValueError` from `relative_to` aborts the writer. -/
def write_log_file (cwd input : PPath) : List (FileData × Nat) → Except Unit (List String)
  | [] => Except.ok []
  | (f, c) :: rest =>
    match relative_to f.path (abspath cwd input) with
    | none => Except.error ()
    | some rel =>
      match write_log_file cwd input rest with
      | Except.error e => Except.error e
      | Except.ok lines => Except.ok ((String.intercalate "/" rel ++ ";" ++ toString c) :: lines)

/-- The duplicate predicate of spec section 4.2, written from the spec words:
some member of the comparison pool compares pixel-identical to the candidate.
The pool filter (code neither 3 nor 1) is the one the code applies; the spec
claims the pool holds only code-0 entries, which the theorems settle. -/
def is_duplicate (im : Img) (checked : List (FileData × Nat)) : Bool :=
  decide (∃ p ∈ checked, p.2 ≠ 3 ∧ p.2 ≠ 1 ∧ is_equal im p.1.img = DiffResult.noBBox)

/-- The ordered rule table of spec section 4.1 for one candidate: each entry
is the failure flag of a rule paired with the code that rule assigns. -/
def specOrderedRules (f : FileData) (checked : List (FileData × Nat)) : List (Bool × Nat) :=
  [ (!f.decodable, 3),
    (!hasAllowedExtension (renderPath f.path), 1),
    (!(decide (f.size > 10000)), 2),
    (!(decide (f.varSum > 0)), 4),
    ((!(decide (f.img.width ≥ 100 ∧ f.img.height ≥ 100))) || decide (f.ndims > 2), 5),
    (is_duplicate f.img checked, 6) ]

/-- Modelled from the spec: return the code of the first rule whose failure
flag is set, 0 when every rule passes. -/
def firstFailingCode : List (Bool × Nat) → Nat
  | [] => 0
  | (b, c) :: rest => if b then c else firstFailingCode rest

/-- A 200 by 200 grayscale image with some variance in its pixel data. -/
def sampleImg : Img := ⟨"L", 200, 200, [0, 1, 2]⟩

/-- A 10 by 10 grayscale image: too small, and of a size incompatible with
`sampleImg` for `ImageChops.difference`. -/
def smallImg : Img := ⟨"L", 10, 10, [5]⟩

/-- A decodable jpg of 5000 bytes: rejected with code 2 (too small a file). -/
def sampleSmall : FileData := ⟨⟨false, ["in", "a.jpg"]⟩, true, 5000, 1, sampleImg, 2⟩

/-- A fully valid jpg whose decoded image is `sampleImg`. -/
def sampleValid : FileData := ⟨⟨false, ["in", "b.jpg"]⟩, true, 20000, 1, sampleImg, 2⟩

/-- A second fully valid jpg, pixel-identical to `sampleValid`. -/
def sampleValid2 : FileData := ⟨⟨false, ["in", "c.jpg"]⟩, true, 30000, 1, sampleImg, 2⟩

/-- An undecodable file whose name also fails the extension whitelist. -/
def badFile : FileData := ⟨⟨false, ["in", "c.txt"]⟩, false, 0, 0, sampleImg, 2⟩

/-- An otherwise valid jpg decoding to a 50 by 200 image. -/
def wideFile : FileData := ⟨⟨false, ["in", "w.jpg"]⟩, true, 20000, 1, ⟨"L", 50, 200, [0, 1]⟩, 2⟩

/-- An otherwise valid jpg whose decoded image is the 10 by 10 `smallImg`. -/
def mismatchFile : FileData := ⟨⟨false, ["in", "m.jpg"]⟩, true, 20000, 1, smallImg, 2⟩

theorem dup_scan_eq_six_iff (im : Img) (checked : List (FileData × Nat)) :
    dup_scan im checked = 6 ↔
      ∃ p ∈ checked, p.2 ≠ 3 ∧ p.2 ≠ 1 ∧ is_equal im p.1.img = DiffResult.noBBox := by
  induction checked with
  | nil => simp [dup_scan]
  | cons p rest ih =>
    obtain ⟨g, c⟩ := p
    unfold dup_scan
    by_cases hc : c ≠ 3 ∧ c ≠ 1
    · rw [if_pos hc]
      by_cases he : is_equal im g.img = DiffResult.noBBox
      · rw [if_pos he]
        constructor
        · intro _
          exact ⟨(g, c), List.mem_cons_self _ _, hc.1, hc.2, he⟩
        · intro _
          rfl
      · rw [if_neg he, ih]
        constructor
        · rintro ⟨p, hp, h⟩
          exact ⟨p, List.mem_cons_of_mem _ hp, h⟩
        · rintro ⟨p, hp, h⟩
          rcases List.mem_cons.mp hp with hhead | htail
          · subst hhead
            exact absurd h.2.2 he
          · exact ⟨p, htail, h⟩
    · rw [if_neg hc, ih]
      constructor
      · rintro ⟨p, hp, h⟩
        exact ⟨p, List.mem_cons_of_mem _ hp, h⟩
      · rintro ⟨p, hp, h⟩
        rcases List.mem_cons.mp hp with hhead | htail
        · subst hhead
          exact absurd ⟨h.1, h.2.1⟩ hc
        · exact ⟨p, htail, h⟩

theorem dup_scan_mem (im : Img) (checked : List (FileData × Nat)) :
    dup_scan im checked = 0 ∨ dup_scan im checked = 6 := by
  induction checked with
  | nil => exact Or.inl rfl
  | cons p rest ih =>
    obtain ⟨g, c⟩ := p
    unfold dup_scan
    by_cases hc : c ≠ 3 ∧ c ≠ 1
    · rw [if_pos hc]
      by_cases he : is_equal im g.img = DiffResult.noBBox
      · rw [if_pos he]
        exact Or.inr rfl
      · rw [if_neg he]
        exact ih
    · rw [if_neg hc]
      exact ih

theorem dup_scan_eq (im : Img) (checked : List (FileData × Nat)) :
    dup_scan im checked = if is_duplicate im checked then 6 else 0 := by
  by_cases hd : ∃ p ∈ checked, p.2 ≠ 3 ∧ p.2 ≠ 1 ∧ is_equal im p.1.img = DiffResult.noBBox
  · rw [(dup_scan_eq_six_iff im checked).mpr hd]
    unfold is_duplicate
    rw [decide_eq_true hd]
    rfl
  · have h0 : dup_scan im checked = 0 := by
      rcases dup_scan_mem im checked with h | h
      · exact h
      · exact absurd ((dup_scan_eq_six_iff im checked).mp h) hd
    rw [h0]
    unfold is_duplicate
    rw [decide_eq_false hd]
    rfl

theorem validate_file_passes (f : FileData) (checked : List (FileData × Nat))
    (h3 : f.decodable = true) (h1 : hasAllowedExtension (renderPath f.path) = true)
    (h2 : 10000 < f.size) (h4 : 0 < f.varSum)
    (hw : 100 ≤ f.img.width) (hh : 100 ≤ f.img.height) (hn : f.ndims ≤ 2) :
    validate_file f checked = dup_scan f.img checked := by
  unfold validate_file
  rw [if_neg (by simp [h3]), if_neg (by simp [h1]), if_neg (by omega),
    if_neg (not_not_intro h4), if_neg (by omega)]

theorem check_files_from_map_fst (files : List FileData) :
    ∀ acc : List (FileData × Nat), (check_files_from acc files).map Prod.fst = files := by
  induction files with
  | nil => intro acc; rfl
  | cons f rest ih => intro acc; simp [check_files_from, ih]

/-- Claim C2: when a pairwise difference cannot be computed (incompatible
modes or sizes), `is_equal` reports the error outcome instead of raising, the
candidate is not classified a duplicate because of that pair, the error is
not propagated as the candidate's status, and the scan continues with the
next pool entry; in particular images of differing dimensions compare as
non-equal without crashing the batch. -/
theorem C2_comparison_error_skipped :
    (∀ im1 im2 : Img,
      im1.mode ≠ im2.mode ∨ im1.width ≠ im2.width ∨ im1.height ≠ im2.height →
      is_equal im1 im2 = DiffResult.errorCode) ∧
    (∀ (im : Img) (g : FileData) (c : Nat) (rest : List (FileData × Nat)),
      is_equal im g.img = DiffResult.errorCode →
      dup_scan im ((g, c) :: rest) = dup_scan im rest) := by
  constructor
  · intro im1 im2 h
    unfold is_equal
    rw [if_neg (by tauto)]
  · intro im g c rest herr
    simp only [dup_scan]
    by_cases hc : c ≠ 3 ∧ c ≠ 1
    · rw [if_pos hc, if_neg (by rw [herr]; intro hcontra; cases hcontra)]
    · rw [if_neg hc]

/-- Claim C2 witness: the 200 by 200 `sampleImg` and the 10 by 10 `smallImg`
compare with the error outcome, and the outcome of the scan over a pool led
by the mismatching image equals the scan over the rest of the pool. -/
theorem C2_comparison_error_skipped_witness :
    is_equal sampleImg smallImg = DiffResult.errorCode ∧
    dup_scan sampleImg [(mismatchFile, 0)] = dup_scan sampleImg [] :=
  ⟨C2_comparison_error_skipped.1 sampleImg smallImg (by decide),
   C2_comparison_error_skipped.2 sampleImg mismatchFile 0 [] (by decide)⟩

/-- Claim C3: the validator applies the rules exactly in the order
decodability (3), extension whitelist (1), minimum file size (2), non-zero
variance (4), dimensions and channel shape (5), duplicate (6), returning the
code of the first failing rule; in particular a file that is both
undecodable and of wrong extension is classified 3, never 1. -/
theorem C3_rule_order :
    (∀ (f : FileData) (checked : List (FileData × Nat)),
      validate_file f checked = firstFailingCode (specOrderedRules f checked)) ∧
    (∀ (f : FileData) (checked : List (FileData × Nat)),
      f.decodable = false → hasAllowedExtension (renderPath f.path) = false →
      validate_file f checked = 3) := by
  constructor
  · intro f checked
    simp only [specOrderedRules, firstFailingCode]
    unfold validate_file
    by_cases h3 : f.decodable = true
    · by_cases h1 : hasAllowedExtension (renderPath f.path) = true
      · by_cases h2 : 10000 < f.size
        · by_cases h4 : 0 < f.varSum
          · by_cases h5w : 100 ≤ f.img.width ∧ 100 ≤ f.img.height
            · by_cases h5n : 2 < f.ndims
              · simp [h3, h1, h5n, decide_eq_true h2, decide_eq_true h4,
                  decide_eq_true h5w, decide_eq_true h5n, not_le.mpr h2, not_le.mpr h4]
              · simp [h3, h1, h2, h4, h5w, h5n, decide_eq_true h2, decide_eq_true h4,
                  decide_eq_true h5w, decide_eq_false h5n, dup_scan_eq]
            · simp [h3, h1, h2, h4, h5w, decide_eq_true h2, decide_eq_true h4,
                decide_eq_false h5w]
          · simp [h3, h1, h2, h4, decide_eq_true h2, decide_eq_false h4]
        · simp [h3, h1, h2, decide_eq_false h2]
      · rw [Bool.not_eq_true] at h1
        simp [h3, h1]
    · rw [Bool.not_eq_true] at h3
      simp [h3]
  · intro f checked h3 _
    unfold validate_file
    rw [if_pos (by simp [h3])]

/-- Claim C3 witness: the undecodable wrong-extension `badFile` is
classified 3. -/
theorem C3_rule_order_witness : validate_file badFile [] = 3 :=
  C3_rule_order.2 badFile [] rfl (by decide)

/-- Claim C6: for a decodable file with an allowed extension, the size rule
is strict: any byte size at most 10000 (so in particular exactly 10000, or
anything under 10000) is classified 2, whatever the pixel content. -/
theorem C6_size_rule :
    ∀ (f : FileData) (checked : List (FileData × Nat)),
      f.decodable = true → hasAllowedExtension (renderPath f.path) = true →
      f.size ≤ 10000 → validate_file f checked = 2 := by
  intro f checked h3 h1 h2
  unfold validate_file
  rw [if_neg (by simp [h3]), if_neg (by simp [h1]), if_pos (by omega)]

/-- Claim C6 witness: `sampleSmall` (5000 bytes, decodable, allowed
extension) is classified 2, and a variant of exactly 10000 bytes as well. -/
theorem C6_size_rule_witness :
    validate_file sampleSmall [] = 2 ∧
    validate_file ⟨⟨false, ["in", "a.jpg"]⟩, true, 10000, 1, sampleImg, 2⟩ [] = 2 :=
  ⟨C6_size_rule sampleSmall [] rfl (by decide) (by decide),
   C6_size_rule ⟨⟨false, ["in", "a.jpg"]⟩, true, 10000, 1, sampleImg, 2⟩ [] rfl
     (by decide) (by decide)⟩

/-- Claim C7: a file passing the first four rules is classified 5 exactly
when its width is under 100, or its height is under 100, or its decoded
pixel array has more than 2 dimensions. -/
theorem C7_dims_rule :
    ∀ (f : FileData) (checked : List (FileData × Nat)),
      f.decodable = true → hasAllowedExtension (renderPath f.path) = true →
      10000 < f.size → 0 < f.varSum →
      (validate_file f checked = 5 ↔
        (f.img.width < 100 ∨ f.img.height < 100 ∨ 2 < f.ndims)) := by
  intro f checked h3 h1 h2 h4
  unfold validate_file
  rw [if_neg (by simp [h3]), if_neg (by simp [h1]), if_neg (by omega),
    if_neg (not_not_intro h4)]
  by_cases h5 : ¬(f.img.width ≥ 100 ∧ f.img.height ≥ 100) ∨ f.ndims > 2
  · rw [if_pos h5]
    exact ⟨fun _ => by omega, fun _ => rfl⟩
  · rw [if_neg h5]
    constructor
    · intro hd
      rcases dup_scan_mem f.img checked with h0 | h0 <;> omega
    · intro hr
      omega

/-- Claim C7 witness: the 50 by 200 otherwise-valid `wideFile` is
classified 5. -/
theorem C7_dims_rule_witness : validate_file wideFile [] = 5 :=
  (C7_dims_rule wideFile [] rfl (by decide) (by decide) (by decide)).mpr (by decide)

theorem check_files_from_getElem (files : List FileData) :
    ∀ (acc : List (FileData × Nat)) (i : Nat),
      (check_files_from acc files)[i]? =
        (files[i]?).map fun f =>
          (f, validate_file f (acc ++ check_files_from acc (files.take i))) := by
  induction files with
  | nil =>
    intro acc i
    simp [check_files_from]
  | cons f rest ih =>
    intro acc i
    cases i with
    | zero =>
      simp [check_files_from]
    | succ n =>
      simp only [check_files_from, List.getElem?_cons_succ, List.take_succ_cons]
      rw [ih (acc ++ [(f, validate_file f acc)]) n]
      simp [check_files_from, List.append_assoc]

/-- Claim C1 counterexample: in the run over `sampleSmall` (rejected with
code 2) followed by the pixel-identical `sampleValid`, the second file is
classified 6 even though no earlier file was classified 0 — validated
against the empty pool the claim prescribes, it would be classified 0 —
so the comparison pool is not the set of previously accepted candidates. -/
theorem C1_counterexample :
    (check_files [sampleSmall, sampleValid]).map Prod.snd = [2, 6] ∧
    validate_file sampleValid [] = 0 := by
  decide

/-- Claim C1 (amended): each candidate is recorded with exactly one code and
is validated against exactly the candidates checked strictly before it in
traversal order (never itself or later files); the duplicate scan reports 6
exactly when some prior candidate whose recorded code is neither 3 nor 1 —
not only the accepted ones — compares pixel-identical, and otherwise
contributes 0. -/
theorem C1_pool_characterization :
    (∀ (files : List FileData) (i : Nat),
      (check_files files)[i]? =
        (files[i]?).map fun f => (f, validate_file f (check_files (files.take i)))) ∧
    (∀ (im : Img) (checked : List (FileData × Nat)),
      (dup_scan im checked = 6 ↔
        ∃ p ∈ checked, p.2 ≠ 3 ∧ p.2 ≠ 1 ∧ is_equal im p.1.img = DiffResult.noBBox) ∧
      (dup_scan im checked = 0 ∨ dup_scan im checked = 6)) := by
  constructor
  · intro files i
    have h := check_files_from_getElem files [] i
    simpa [check_files] using h
  · intro im checked
    exact ⟨dup_scan_eq_six_iff im checked, dup_scan_mem im checked⟩

/-- Claim C4 counterexample: a file named without any dot exists below the
input directory, yet the scan enumerates nothing: the glob pattern `*.*`
does not match a dotless file name, so not all files are enumerated. -/
theorem C4_counterexample :
    get_files ⟨true, ["in"]⟩ [["noext"]] = [] ∧
    [["noext"]] ≠ ([] : List (List String)) := by
  decide

/-- Claim C4 (amended): the scan enumerates exactly the files matched by the
glob pattern `**/*.*` (every path component non-hidden and the file name
containing a dot) — not all files — recursively, in lexicographic order of
full path, and each enumerated file is classified exactly once in that
order. -/
theorem C4_scan_enumeration :
    (∀ (input : PPath) (fs : List (List String)),
      (get_files input fs).Perm ((fs.filter globMatch).map (joinUnder input)) ∧
      List.Sorted pathLe (get_files input fs)) ∧
    (∀ files : List FileData, (check_files files).map Prod.fst = files) := by
  constructor
  · intro input fs
    exact ⟨List.perm_insertionSort pathLe _, List.sorted_insertionSort pathLe _⟩
  · intro files
    exact check_files_from_map_fst files []

/-- Claim C5: for two pixel-identical, otherwise-valid images, the one seen
first in traversal order is classified 0 and the later one 6; reversing the
order reverses which one is called the duplicate. -/
theorem C5_first_occurrence_wins :
    ∀ fa fb : FileData, fa.img = fb.img →
      fa.decodable = true → hasAllowedExtension (renderPath fa.path) = true →
      10000 < fa.size → 0 < fa.varSum →
      100 ≤ fa.img.width → 100 ≤ fa.img.height → fa.ndims ≤ 2 →
      fb.decodable = true → hasAllowedExtension (renderPath fb.path) = true →
      10000 < fb.size → 0 < fb.varSum → fb.ndims ≤ 2 →
      check_files [fa, fb] = [(fa, 0), (fb, 6)] ∧
      check_files [fb, fa] = [(fb, 0), (fa, 6)] := by
  intro fa fb himg ha3 ha1 ha2 ha4 haw hah han hb3 hb1 hb2 hb4 hbn
  have hbw : 100 ≤ fb.img.width := himg ▸ haw
  have hbh : 100 ≤ fb.img.height := himg ▸ hah
  have hva : validate_file fa [] = 0 := by
    rw [validate_file_passes fa [] ha3 ha1 ha2 ha4 haw hah han]
    rfl
  have hvb : validate_file fb [] = 0 := by
    rw [validate_file_passes fb [] hb3 hb1 hb2 hb4 hbw hbh hbn]
    rfl
  have heqb : is_equal fb.img fa.img = DiffResult.noBBox := by
    rw [← himg]
    simp [is_equal]
  have heqa : is_equal fa.img fb.img = DiffResult.noBBox := by
    rw [himg]
    simp [is_equal]
  have hdb : validate_file fb [(fa, 0)] = 6 := by
    rw [validate_file_passes fb [(fa, 0)] hb3 hb1 hb2 hb4 hbw hbh hbn]
    simp [dup_scan, heqb]
  have hda : validate_file fa [(fb, 0)] = 6 := by
    rw [validate_file_passes fa [(fb, 0)] ha3 ha1 ha2 ha4 haw hah han]
    simp [dup_scan, heqa]
  constructor
  · simp [check_files, check_files_from, hva, hdb]
  · simp [check_files, check_files_from, hvb, hda]

/-- Claim C5 witness: `sampleValid` then the pixel-identical `sampleValid2`
classify as 0 then 6, and in the reversed order as 0 for `sampleValid2` and
6 for `sampleValid`. -/
theorem C5_first_occurrence_wins_witness :
    check_files [sampleValid, sampleValid2] = [(sampleValid, 0), (sampleValid2, 6)] ∧
    check_files [sampleValid2, sampleValid] = [(sampleValid2, 0), (sampleValid, 6)] :=
  C5_first_occurrence_wins sampleValid sampleValid2 rfl rfl (by decide) (by decide)
    (by decide) (by decide) (by decide) (by decide) rfl (by decide) (by decide)
    (by decide) (by decide)

/-- Claim C8: every scanned file receives exactly one status code, in
traversal order, and `separate_files` partitions the classifications into
the code-0 entries and the nonzero-code entries, both preserving traversal
order. -/
theorem C8_partition :
    (∀ files : List FileData, (check_files files).map Prod.fst = files) ∧
    (∀ checked : List (FileData × Nat),
      separate_files checked =
        (checked.filter fun p => p.2 == 0, checked.filter fun p => !(p.2 == 0))) := by
  constructor
  · intro files
    exact check_files_from_map_fst files []
  · intro checked
    induction checked with
    | nil => rfl
    | cons p rest ih =>
      by_cases h : p.2 = 0
      · simp [separate_files, List.filter_cons, h, ih]
      · simp [separate_files, List.filter_cons, h, ih]

theorem copy_valid_files_from_getElem (valid : List (FileData × Nat)) :
    ∀ (outDir : String) (j i : Nat),
      (copy_valid_files_from outDir j valid)[i]? =
        (valid[i]?).map fun e =>
          (renderPath e.1.path, outDir ++ "/" ++ pad6 (j + i + 1) ++ ".jpg") := by
  induction valid with
  | nil =>
    intro outDir j i
    simp [copy_valid_files_from]
  | cons e rest ih =>
    intro outDir j i
    cases i with
    | zero =>
      simp [copy_valid_files_from]
    | succ n =>
      simp only [copy_valid_files_from, List.getElem?_cons_succ]
      rw [ih outDir (j + 1) n]
      have harith : j + 1 + n + 1 = j + (n + 1) + 1 := by omega
      rw [harith]

/-- Claim C9: the i-th accepted file (0-based index i, so 1-indexed i+1) is
copied to the output directory under the zero-padded sequential name
`pad6 (i+1) ++ ".jpg"`, with no index skipped or reordered; only entries of
the accepted list consume index slots. -/
theorem C9_sequential_names :
    ∀ (outDir : String) (valid : List (FileData × Nat)) (i : Nat),
      (copy_valid_files outDir valid)[i]? =
        (valid[i]?).map fun e =>
          (renderPath e.1.path, outDir ++ "/" ++ pad6 (i + 1) ++ ".jpg") := by
  intro outDir valid i
  have h := copy_valid_files_from_getElem valid outDir 0 i
  simpa [copy_valid_files] using h

theorem write_log_file_rel_error (cwd input : PPath) (f : FileData) (c : Nat)
    (rest : List (FileData × Nat)) (hrel : input.absolute = false)
    (hq : f.path.absolute = false) :
    write_log_file cwd input ((f, c) :: rest) = Except.error () := by
  have hbase : abspath cwd input = ⟨true, cwd.parts ++ input.parts⟩ := by
    unfold abspath
    rw [if_neg (by simp [hrel])]
  have hnone : relative_to f.path (abspath cwd input) = none := by
    rw [hbase]
    unfold relative_to
    rw [if_neg (by simp [hq])]
  simp [write_log_file, hnone]

/-- Claim C10: scanned paths inherit the absoluteness of the input
directory, so when the input directory is relative and at least one file is
rejected the log writer fails with an exception (pathlib cannot make a
relative path relative to the absolutized input directory); the writer
succeeds only when the input directory is absolute or no file is rejected. -/
theorem C10_relative_input_log_exception :
    (∀ (input : PPath) (fs : List (List String)) (p : PPath),
      p ∈ get_files input fs → p.absolute = input.absolute) ∧
    (∀ (cwd input : PPath) (invalid : List (FileData × Nat)),
      input.absolute = false →
      (∀ q ∈ invalid, (Prod.fst q).path.absolute = false) →
      invalid ≠ [] →
      write_log_file cwd input invalid = Except.error ()) ∧
    (∀ (cwd input : PPath) (invalid : List (FileData × Nat)) (lines : List String),
      (∀ q ∈ invalid, (Prod.fst q).path.absolute = input.absolute) →
      write_log_file cwd input invalid = Except.ok lines →
      input.absolute = true ∨ invalid = []) := by
  refine ⟨?_, ?_, ?_⟩
  · intro input fs p hp
    unfold get_files at hp
    have hp2 : p ∈ (fs.filter globMatch).map (joinUnder input) :=
      (List.perm_insertionSort pathLe _).mem_iff.mp hp
    obtain ⟨rel, _, hrel⟩ := List.mem_map.mp hp2
    rw [← hrel]
    rfl
  · intro cwd input invalid hrel hall hne
    cases invalid with
    | nil => exact absurd rfl hne
    | cons q rest =>
      obtain ⟨f, c⟩ := q
      exact write_log_file_rel_error cwd input f c rest hrel
        (hall (f, c) (List.mem_cons_self _ _))
  · intro cwd input invalid lines hall hok
    cases invalid with
    | nil => exact Or.inr rfl
    | cons q rest =>
      left
      by_contra hab
      have hrel : input.absolute = false := by
        cases h : input.absolute
        · rfl
        · exact absurd h hab
      obtain ⟨f, c⟩ := q
      have hq : f.path.absolute = false := by
        rw [hall (f, c) (List.mem_cons_self _ _), hrel]
      rw [write_log_file_rel_error cwd input f c rest hrel hq] at hok
      exact Except.noConfusion hok

/-- Claim C10 witness: a concrete scan below the relative input directory
`in` produces a relative path; the log writer fails on a nonempty rejected
list under that relative input directory; and it succeeds on the empty
rejected list. -/
theorem C10_relative_input_log_exception_witness :
    (⟨false, ["in", "b.jpg"]⟩ : PPath).absolute = (⟨false, ["in"]⟩ : PPath).absolute ∧
    write_log_file ⟨true, ["cwd"]⟩ ⟨false, ["in"]⟩ [(sampleSmall, 2)] = Except.error () ∧
    ((⟨false, ["in"]⟩ : PPath).absolute = true ∨ ([] : List (FileData × Nat)) = []) :=
  ⟨C10_relative_input_log_exception.1 ⟨false, ["in"]⟩ [["b.jpg"]]
      ⟨false, ["in", "b.jpg"]⟩ (by decide),
   C10_relative_input_log_exception.2.1 ⟨true, ["cwd"]⟩ ⟨false, ["in"]⟩
      [(sampleSmall, 2)] rfl
      (by intro q hq
          rw [List.mem_singleton] at hq
          subst hq
          rfl)
      (by simp),
   C10_relative_input_log_exception.2.2 ⟨true, ["cwd"]⟩ ⟨false, ["in"]⟩ [] []
      (by intro q hq
          exact absurd hq (List.not_mem_nil q))
      rfl⟩

end ImagePre
